import Mathlib

/-!
Verification of the motion-detection and clip-assembly core of the Birdieo
camera processor (`camera_processor.py`, `enhanced_live_api.py`).

The computer-vision front end (background subtraction, morphological opening,
contour extraction) of `ShotDetector.detect_motion` reduces each frame to a
single number, the summed contour area (`total_area`).  The embedding therefore
takes that area as input, together with the wall-clock time `time.time()` read
by the method; both are modelled as rationals.  The decision logic of
`detect_motion` (lines 50-62), the `FrameBuffer` (a pair of `deque(maxlen=n)`
plus a lock), and the clip-creation pipeline are translated directly.

Frames are `numpy` arrays, i.e. mutable objects passed by reference.  To state
copy/alias properties we use an explicit heap: a list of image contents, where
an array object is a natural-number index into the heap.  `frame.copy()`
(line 75 of the source) allocates a fresh index holding the same contents;
`clip_frames.append(self.buffer[i])` (line 91) hands out the stored index
itself.  Appending to the heap models allocation; `Heap.write` models an
in-place mutation of one array.
-/

/-- State of `ShotDetector` (`camera_processor.py` lines 22-33).  The
`cv2.createBackgroundSubtractorMOG2` model is the part that turns a frame into
`total_area` and is abstracted away; the remaining fields are the ones read and
written by `detect_motion`. -/
structure ShotDetector where
  motion_threshold : ℚ
  consecutive_frames : ℕ
  motion_counter : ℕ
  last_motion_time : ℚ
  cooldown_period : ℚ
  deriving Repr, DecidableEq

/-- `ShotDetector.__init__` (lines 25-33): no parameters, all knobs are
hard-coded constants. -/
def ShotDetector.init : ShotDetector :=
  { motion_threshold := 5000
    consecutive_frames := 3
    motion_counter := 0
    last_motion_time := 0
    cooldown_period := 10 }

/-- `ShotDetector.detect_motion` (lines 35-62), with the frame already reduced
to its summed contour area `total_area` and with `current_time` the value of
`time.time()`.  Returns the updated detector state and the boolean result.
`max(0, c - 1)` on line 60 is truncated subtraction on `ℕ`. -/
def ShotDetector.detect_motion (d : ShotDetector) (total_area current_time : ℚ) :
    ShotDetector × Bool :=
  if d.motion_threshold < total_area then
    if d.cooldown_period < current_time - d.last_motion_time then
      if d.consecutive_frames ≤ d.motion_counter + 1 then
        ({ d with last_motion_time := current_time, motion_counter := 0 }, true)
      else
        ({ d with motion_counter := d.motion_counter + 1 }, false)
    else
      (d, false)
  else
    ({ d with motion_counter := d.motion_counter - 1 }, false)

/-- Feeding a sequence of (area, time) readings to one detector instance and
collecting the boolean returned for each frame. -/
def runDetector : ShotDetector → List (ℚ × ℚ) → List Bool
  | _, [] => []
  | d, (a, t) :: rest =>
      (d.detect_motion a t).2 :: runDetector (d.detect_motion a t).1 rest

/-- The `current_time` values of the calls on which the detector fired. -/
def fireTimes : ShotDetector → List (ℚ × ℚ) → List ℚ
  | _, [] => []
  | d, (a, t) :: rest =>
      if (d.detect_motion a t).2 then t :: fireTimes (d.detect_motion a t).1 rest
      else fireTimes (d.detect_motion a t).1 rest

/-- The spec's boundary scenario: threshold 5000, areas
`[6000, 6000, 100, 6000, 6000, 6000]`, fed at one-second spacing long after the
initial `last_motion_time = 0` so that the cooldown is not in effect. -/
def demoDipInput : List (ℚ × ℚ) :=
  [(6000, 101), (6000, 102), (100, 103), (6000, 104), (6000, 105), (6000, 106)]

/-- A sequence producing two fires: three qualifying frames, then three more
after the 10-second cooldown has passed. -/
def demoCooldownInput : List (ℚ × ℚ) :=
  [(6000, 101), (6000, 102), (6000, 103), (6000, 120), (6000, 121), (6000, 122)]

/-- Detector state mid-cooldown: a fire was recorded at time 100 and the
counter has already accumulated to 2. -/
def demoMidCooldown : ShotDetector :=
  { motion_threshold := 5000
    consecutive_frames := 3
    motion_counter := 2
    last_motion_time := 100
    cooldown_period := 10 }

lemma detect_motion_cooldown_eq (d : ShotDetector) (a t : ℚ) :
    (d.detect_motion a t).1.cooldown_period = d.cooldown_period := by
  unfold ShotDetector.detect_motion
  split_ifs <;> rfl

lemma detect_motion_last_of_not_fired (d : ShotDetector) (a t : ℚ)
    (h : (d.detect_motion a t).2 = false) :
    (d.detect_motion a t).1.last_motion_time = d.last_motion_time := by
  unfold ShotDetector.detect_motion at h ⊢
  split_ifs at h ⊢ <;> simp_all

lemma detect_motion_fired (d : ShotDetector) (a t : ℚ)
    (h : (d.detect_motion a t).2 = true) :
    (d.detect_motion a t).1.last_motion_time = t ∧
      d.cooldown_period < t - d.last_motion_time := by
  unfold ShotDetector.detect_motion at h ⊢
  split_ifs at h ⊢ with h1 h2 h3 <;> simp_all

lemma fireTimes_lower (ins : List (ℚ × ℚ)) :
    ∀ d : ShotDetector, 0 ≤ d.cooldown_period →
      ∀ t ∈ fireTimes d ins, d.last_motion_time + d.cooldown_period < t := by
  induction ins with
  | nil =>
      intro d _ t ht
      simp [fireTimes] at ht
  | cons p rest ih =>
      intro d hcd t ht
      obtain ⟨a, tm⟩ := p
      rw [fireTimes] at ht
      by_cases hfd : (d.detect_motion a tm).2 = true
      · rw [if_pos hfd, List.mem_cons] at ht
        obtain ⟨hlast, hgap⟩ := detect_motion_fired d a tm hfd
        rcases ht with rfl | ht
        · linarith
        · have hcd' : 0 ≤ (d.detect_motion a tm).1.cooldown_period := by
            rw [detect_motion_cooldown_eq]; exact hcd
          have := ih (d.detect_motion a tm).1 hcd' t ht
          rw [hlast, detect_motion_cooldown_eq] at this
          linarith
      · rw [if_neg hfd] at ht
        have hcd' : 0 ≤ (d.detect_motion a tm).1.cooldown_period := by
          rw [detect_motion_cooldown_eq]; exact hcd
        have := ih (d.detect_motion a tm).1 hcd' t ht
        rw [detect_motion_last_of_not_fired d a tm (by simpa using hfd),
          detect_motion_cooldown_eq] at this
        exact this

lemma fireTimes_pairwise (ins : List (ℚ × ℚ)) :
    ∀ d : ShotDetector, 0 ≤ d.cooldown_period →
      List.Pairwise (fun t1 t2 => d.cooldown_period < t2 - t1) (fireTimes d ins) := by
  induction ins with
  | nil =>
      intro d _
      simp [fireTimes]
  | cons p rest ih =>
      intro d hcd
      obtain ⟨a, tm⟩ := p
      rw [fireTimes]
      have hcd' : 0 ≤ (d.detect_motion a tm).1.cooldown_period := by
        rw [detect_motion_cooldown_eq]; exact hcd
      have htail := ih (d.detect_motion a tm).1 hcd'
      rw [detect_motion_cooldown_eq] at htail
      by_cases hfd : (d.detect_motion a tm).2 = true
      · rw [if_pos hfd]
        refine List.Pairwise.cons ?_ htail
        intro t' ht'
        obtain ⟨hlast, _⟩ := detect_motion_fired d a tm hfd
        have := fireTimes_lower rest (d.detect_motion a tm).1 hcd' t' ht'
        rw [hlast, detect_motion_cooldown_eq] at this
        linarith
      · rw [if_neg hfd]
        exact htail

/-- C1: with threshold 5000, 3 consecutive frames required and a 10-second
cooldown not in effect, the area sequence `[6000, 6000, 100, 6000, 6000, 6000]`
does NOT fire on the 6th frame: the dip at frame 3 merely decrements the
counter (line 60 is `max(0, counter - 1)`), it does not reset it to zero, so
the claimed output `[F, F, F, F, F, T]` is refuted. -/
theorem detector_dip_no_sixth_frame_fire :
    runDetector ShotDetector.init demoDipInput ≠
      [false, false, false, false, false, true] := by
  norm_num [runDetector, ShotDetector.detect_motion, demoDipInput, ShotDetector.init]

/-- C1 (amended): on the dip sequence the detector fires exactly once, and the
fire occurs on the 5th frame, because the dip at frame 3 decrements the
consecutive-frame counter from 2 to 1 rather than resetting it. -/
theorem detector_dip_fires_fifth :
    runDetector ShotDetector.init demoDipInput =
      [false, false, false, false, true, false] := by
  norm_num [runDetector, ShotDetector.detect_motion, demoDipInput, ShotDetector.init]

/-- C2: fires of one detector instance are separated by more than the cooldown:
for any input sequence, any two recorded fire times are more than
`cooldown_period` apart (the detector fires at most once per cooldown
interval, however long the area stays above threshold). -/
theorem detector_cooldown_separation (d : ShotDetector) (ins : List (ℚ × ℚ))
    (hcd : 0 ≤ d.cooldown_period) :
    List.Pairwise (fun t1 t2 => d.cooldown_period < t2 - t1) (fireTimes d ins) :=
  fireTimes_pairwise ins d hcd

/-- Witness for C2: a run with two fires, at times 103 and 122, which are more
than the 10-second cooldown apart. -/
theorem detector_cooldown_separation_witness :
    fireTimes ShotDetector.init demoCooldownInput = [103, 122] ∧
    List.Pairwise (fun t1 t2 => ShotDetector.init.cooldown_period < t2 - t1)
      (fireTimes ShotDetector.init demoCooldownInput) :=
  ⟨by norm_num [fireTimes, ShotDetector.detect_motion, demoCooldownInput, ShotDetector.init],
   detector_cooldown_separation ShotDetector.init demoCooldownInput
     (by norm_num [ShotDetector.init])⟩

/-- C3 counterexample: a call whose area (6000) is above the threshold (5000)
but which arrives during the cooldown (elapsed 5 ≤ 10) leaves the counter
unchanged at 2; the claimed decrement to 1 does not happen, because line 60's
decrement sits in the `else` of the area test only. -/
theorem counter_unchanged_during_cooldown :
    demoMidCooldown.motion_threshold < 6000 ∧
    (105:ℚ) - demoMidCooldown.last_motion_time ≤ demoMidCooldown.cooldown_period ∧
    (demoMidCooldown.detect_motion 6000 105).1.motion_counter = 2 ∧
    (demoMidCooldown.detect_motion 6000 105).1.motion_counter ≠ 1 := by
  norm_num [demoMidCooldown, ShotDetector.detect_motion]

/-- C3 (amended): the counter is decremented by one (with floor zero, via
truncated `ℕ` subtraction) exactly when the area is at or below the threshold;
a call above the threshold that arrives during the cooldown leaves the counter
unchanged; the counter is incremented only when the area exceeds the threshold
and the elapsed time since the last fire exceeds the cooldown (and it is reset
to zero when the incremented value reaches the required count). -/
theorem detect_motion_counter_update (d : ShotDetector) (a t : ℚ) :
    (a ≤ d.motion_threshold →
      (d.detect_motion a t).1.motion_counter = d.motion_counter - 1) ∧
    (d.motion_threshold < a → t - d.last_motion_time ≤ d.cooldown_period →
      (d.detect_motion a t).1.motion_counter = d.motion_counter) ∧
    (d.motion_threshold < a → d.cooldown_period < t - d.last_motion_time →
      (d.detect_motion a t).1.motion_counter =
        if d.consecutive_frames ≤ d.motion_counter + 1 then 0
        else d.motion_counter + 1) := by
  refine ⟨fun h1 => ?_, fun h1 h2 => ?_, fun h1 h2 => ?_⟩
  · unfold ShotDetector.detect_motion
    rw [if_neg (not_lt.mpr h1)]
  · unfold ShotDetector.detect_motion
    rw [if_pos h1, if_neg (not_lt.mpr (by linarith))]
  · unfold ShotDetector.detect_motion
    rw [if_pos h1, if_pos (by linarith)]
    split <;> rfl

/-- Witness for C3 (amended), exercising all three cases on concrete states:
a below-threshold call decrements 2 to 1, an above-threshold call during
cooldown keeps 2, and an above-threshold call after cooldown increments. -/
theorem detect_motion_counter_update_witness :
    (demoMidCooldown.detect_motion 100 105).1.motion_counter = 1 ∧
    (demoMidCooldown.detect_motion 6000 105).1.motion_counter = 2 ∧
    (demoMidCooldown.detect_motion 6000 120).1.motion_counter = 0 := by
  refine ⟨?_, ?_, ?_⟩
  · have h := (detect_motion_counter_update demoMidCooldown 100 105).1
      (by norm_num [demoMidCooldown])
    simpa [demoMidCooldown] using h
  · have h := (detect_motion_counter_update demoMidCooldown 6000 105).2.1
      (by norm_num [demoMidCooldown]) (by norm_num [demoMidCooldown])
    simpa [demoMidCooldown] using h
  · have h := (detect_motion_counter_update demoMidCooldown 6000 120).2.2
      (by norm_num [demoMidCooldown]) (by norm_num [demoMidCooldown])
    simpa [demoMidCooldown] using h

/-- C6: `ShotDetector.__init__` takes no configuration parameters; the motion
threshold and required consecutive-frame count are hard-coded to 5000 and 3,
so every constructed detector has a positive threshold and a positive
required-frame count (the claim's equivalent formulation). -/
theorem detector_init_positive_config :
    (0:ℚ) < ShotDetector.init.motion_threshold ∧
      0 < ShotDetector.init.consecutive_frames := by
  constructor <;> norm_num [ShotDetector.init]

/-- Pixel contents of one frame (a `numpy` array's data). -/
abbrev Image := List ℕ

/-- The heap of array objects: index `i` holds the contents of array object
`i`.  Allocation appends; an in-place write replaces one entry. -/
abbrev Heap := List Image

/-- Reading the contents of array object `id`. -/
def Heap.lookup (h : Heap) (id : ℕ) : Image := h.getD id []

/-- In-place mutation of array object `id` (e.g. writing pixels into an
existing `numpy` array). -/
def Heap.write (h : Heap) (id : ℕ) (img : Image) : Heap := h.set id img

/-- Appending to a `collections.deque(maxlen := n)`: the new element goes on
the right and the leftmost (oldest) elements are discarded so that at most `n`
remain. -/
def pushBounded {α : Type} (n : ℕ) (xs : List α) (x : α) : List α :=
  (xs ++ [x]).drop ((xs ++ [x]).length - n)

/-- `FrameBuffer` state (`camera_processor.py` lines 64-76): two deques with
the same `maxlen`, one of frame array objects and one of timestamps.  The
`threading.Lock` serialises access and has no effect on the sequential
semantics modelled here. -/
structure FrameBuffer where
  max_size : ℕ
  buffer : List ℕ
  timestamps : List ℚ
  deriving Repr, DecidableEq

/-- `FrameBuffer.__init__` (line 67): empty deques with `maxlen = max_size`
(default 300). -/
def FrameBuffer.init (max_size : ℕ := 300) : FrameBuffer :=
  { max_size := max_size, buffer := [], timestamps := [] }

/-- `FrameBuffer.add_frame` (lines 72-76): appends `frame.copy()` — a freshly
allocated array with the same contents — to `buffer`, and `timestamp` to
`timestamps`.  The fresh array's object id is the current heap length. -/
def FrameBuffer.add_frame (fb : FrameBuffer) (h : Heap) (frame : ℕ)
    (timestamp : ℚ) : FrameBuffer × Heap :=
  ({ fb with
      buffer := pushBounded fb.max_size fb.buffer h.length
      timestamps := pushBounded fb.max_size fb.timestamps timestamp },
   h ++ [Heap.lookup h frame])

/-- `FrameBuffer.get_clip_frames` (lines 78-93): collects `self.buffer[i]`
(the stored array object itself, no copy) for every index whose timestamp
lies in the window.  The `enumerate` loop over parallel deques is the zip. -/
def FrameBuffer.get_clip_frames (fb : FrameBuffer) (trigger_time : ℚ)
    (duration : ℚ) : List ℕ :=
  if fb.timestamps.isEmpty then []
  else
    let start_time := trigger_time - duration / 2
    let end_time := trigger_time + duration / 2
    ((fb.timestamps.zip fb.buffer).filter
        (fun p => decide (start_time ≤ p.1 ∧ p.1 ≤ end_time))).map Prod.snd

/-- Running a sequence of `add_frame` calls: each element of `ins` is the
caller's frame array object and the timestamp passed to one call. -/
def runBuffer : FrameBuffer → Heap → List (ℕ × ℚ) → FrameBuffer × Heap
  | fb, h, [] => (fb, h)
  | fb, h, (frame, t) :: rest =>
      runBuffer (fb.add_frame h frame t).1 (fb.add_frame h frame t).2 rest

/-- Buffer state after feeding `ins` to a fresh `FrameBuffer` of capacity `N`
with initial heap `h`. -/
def fbRun (N : ℕ) (h : Heap) (ins : List (ℕ × ℚ)) : FrameBuffer :=
  (runBuffer (FrameBuffer.init N) h ins).1

/-- Heap state after the same run. -/
def heapRun (N : ℕ) (h : Heap) (ins : List (ℕ × ℚ)) : Heap :=
  (runBuffer (FrameBuffer.init N) h ins).2

/-- Object ids of the fresh copies allocated by `n` consecutive `add_frame`
calls starting from heap length `s`: `s, s+1, ..., s+n-1`. -/
def copyIds (s n : ℕ) : List ℕ := (List.range n).map (s + ·)

/-- Modelled from the spec: "returns all buffered frames whose timestamp lies
in `[trigger - duration/2, trigger + duration/2]`" — the selection the window
contract asks for, applied to the buffered (timestamp, frame) entries. -/
def windowSpec (entries : List (ℚ × ℕ)) (trigger duration : ℚ) :
    List (ℚ × ℕ) :=
  entries.filter
    (fun e => decide (trigger - duration / 2 ≤ e.1 ∧ e.1 ≤ trigger + duration / 2))

lemma pushBounded_length {α : Type} (n : ℕ) (xs : List α) (x : α) :
    (pushBounded n xs x).length = min (xs.length + 1) n := by
  simp [pushBounded]
  omega

lemma pushBounded_append_drop {α : Type} (n : ℕ) (xs : List α) (x : α)
    (ys : List α) :
    (pushBounded n xs x ++ ys).drop ((pushBounded n xs x).length + ys.length - n) =
      (xs ++ x :: ys).drop (xs.length + (ys.length + 1) - n) := by
  unfold pushBounded
  rw [← List.drop_append_of_le_length (by simp : (xs ++ [x]).length - n ≤ (xs ++ [x]).length),
    List.drop_drop, List.append_assoc, List.singleton_append]
  congr 1
  simp
  omega

lemma copyIds_succ (s n : ℕ) : copyIds s (n + 1) = s :: copyIds (s + 1) n := by
  unfold copyIds
  rw [List.range_succ_eq_map]
  simp only [List.map_cons, List.map_map, Nat.add_zero]
  congr 1
  apply List.map_congr_left
  intro a _
  simp [Function.comp]
  omega

lemma runBuffer_char (ins : List (ℕ × ℚ)) :
    ∀ (fb : FrameBuffer) (h : Heap),
      fb.buffer.length ≤ fb.max_size → fb.timestamps.length ≤ fb.max_size →
      (runBuffer fb h ins).1.max_size = fb.max_size ∧
      (runBuffer fb h ins).1.buffer =
        (fb.buffer ++ copyIds h.length ins.length).drop
          (fb.buffer.length + ins.length - fb.max_size) ∧
      (runBuffer fb h ins).1.timestamps =
        (fb.timestamps ++ ins.map Prod.snd).drop
          (fb.timestamps.length + ins.length - fb.max_size) ∧
      (runBuffer fb h ins).2.length = h.length + ins.length := by
  induction ins with
  | nil =>
      intro fb h hb ht
      refine ⟨rfl, ?_, ?_, rfl⟩
      · simp [runBuffer, copyIds, Nat.sub_eq_zero_of_le hb]
      · simp [runBuffer, Nat.sub_eq_zero_of_le ht]
  | cons p rest ih =>
      intro fb h hb ht
      obtain ⟨frame, t⟩ := p
      rw [runBuffer]
      have hb' : (fb.add_frame h frame t).1.buffer.length ≤
          (fb.add_frame h frame t).1.max_size := by
        simp [FrameBuffer.add_frame, pushBounded_length]
      have ht' : (fb.add_frame h frame t).1.timestamps.length ≤
          (fb.add_frame h frame t).1.max_size := by
        simp [FrameBuffer.add_frame, pushBounded_length]
      obtain ⟨hmax, hbuf, hts, hheap⟩ :=
        ih (fb.add_frame h frame t).1 (fb.add_frame h frame t).2 hb' ht'
      refine ⟨by rw [hmax]; rfl, ?_, ?_, ?_⟩
      · rw [hbuf]
        show (pushBounded fb.max_size fb.buffer h.length ++
              copyIds (fb.add_frame h frame t).2.length rest.length).drop _ = _
        have hlen2 : (fb.add_frame h frame t).2.length = h.length + 1 := by
          simp [FrameBuffer.add_frame]
        rw [hlen2, List.length_cons, copyIds_succ]
        have := pushBounded_append_drop fb.max_size fb.buffer h.length
          (copyIds (h.length + 1) rest.length)
        simp only [copyIds, List.length_map, List.length_range] at this ⊢
        rw [show (fb.add_frame h frame t).1.max_size = fb.max_size from rfl,
          show (fb.add_frame h frame t).1.buffer =
            pushBounded fb.max_size fb.buffer h.length from rfl]
        exact this
      · rw [hts]
        have := pushBounded_append_drop fb.max_size fb.timestamps t
          (rest.map Prod.snd)
        simp only [List.length_map, List.length_cons, List.map_cons] at this ⊢
        rw [show (fb.add_frame h frame t).1.max_size = fb.max_size from rfl,
          show (fb.add_frame h frame t).1.timestamps =
            pushBounded fb.max_size fb.timestamps t from rfl]
        exact this
      · rw [hheap]
        simp [FrameBuffer.add_frame]
        omega

lemma fbRun_max (N : ℕ) (h : Heap) (ins : List (ℕ × ℚ)) :
    (fbRun N h ins).max_size = N :=
  (runBuffer_char ins (FrameBuffer.init N) h (by simp [FrameBuffer.init])
    (by simp [FrameBuffer.init])).1

lemma fbRun_buffer (N : ℕ) (h : Heap) (ins : List (ℕ × ℚ)) :
    (fbRun N h ins).buffer = (copyIds h.length ins.length).drop (ins.length - N) := by
  have := (runBuffer_char ins (FrameBuffer.init N) h (by simp [FrameBuffer.init])
    (by simp [FrameBuffer.init])).2.1
  simpa [FrameBuffer.init, fbRun] using this

lemma fbRun_timestamps (N : ℕ) (h : Heap) (ins : List (ℕ × ℚ)) :
    (fbRun N h ins).timestamps = (ins.map Prod.snd).drop (ins.length - N) := by
  have := (runBuffer_char ins (FrameBuffer.init N) h (by simp [FrameBuffer.init])
    (by simp [FrameBuffer.init])).2.2.1
  simpa [FrameBuffer.init, fbRun] using this

lemma fbRun_length_eq (N : ℕ) (h : Heap) (ins : List (ℕ × ℚ)) :
    (fbRun N h ins).timestamps.length = (fbRun N h ins).buffer.length := by
  rw [fbRun_buffer, fbRun_timestamps]
  simp [copyIds]

lemma runBuffer_heap_grows (ins : List (ℕ × ℚ)) :
    ∀ (fb : FrameBuffer) (h : Heap), ∃ e : Heap, (runBuffer fb h ins).2 = h ++ e := by
  induction ins with
  | nil =>
      intro fb h
      exact ⟨[], by simp [runBuffer]⟩
  | cons p rest ih =>
      intro fb h
      obtain ⟨frame, t⟩ := p
      rw [runBuffer]
      obtain ⟨e, he⟩ := ih (fb.add_frame h frame t).1 (fb.add_frame h frame t).2
      exact ⟨Heap.lookup h frame :: e, by
        rw [he]
        simp [FrameBuffer.add_frame]⟩

lemma Heap.lookup_append (h e : Heap) (id : ℕ) (hid : id < h.length) :
    Heap.lookup (h ++ e) id = Heap.lookup h id := by
  simp [Heap.lookup, List.getD_eq_getElem?_getD, List.getElem?_append_left hid]

lemma Heap.lookup_write_ne (h : Heap) (i id : ℕ) (img : Image) (hne : i ≠ id) :
    Heap.lookup (Heap.write h i img) id = Heap.lookup h id := by
  simp [Heap.lookup, Heap.write, List.getD_eq_getElem?_getD, List.getElem?_set_ne hne]

lemma get_clip_frames_subset (fb : FrameBuffer) (t d : ℚ) :
    ∀ id ∈ fb.get_clip_frames t d, id ∈ fb.buffer := by
  intro id hid
  unfold FrameBuffer.get_clip_frames at hid
  split at hid
  · simp at hid
  · simp only [List.mem_map] at hid
    obtain ⟨p, hp, rfl⟩ := hid
    exact (List.of_mem_zip (List.mem_of_mem_filter hp)).2

lemma mem_range_drop (n m j : ℕ) (hj : j ∈ (List.range n).drop m) : m ≤ j := by
  rw [List.mem_iff_getElem] at hj
  obtain ⟨i, hi, hij⟩ := hj
  rw [List.getElem_drop] at hij
  rw [List.getElem_range] at hij
  omega

lemma mem_copyIds_drop (s n m x : ℕ) (hx : x ∈ (copyIds s n).drop m) :
    s + m ≤ x ∧ x < s + n := by
  unfold copyIds at hx
  rw [← List.map_drop] at hx
  simp only [List.mem_map] at hx
  obtain ⟨j, hj, rfl⟩ := hx
  have h1 := mem_range_drop n m j hj
  have h2 : j < n := by
    have := List.mem_of_mem_drop hj
    simpa [List.mem_range] using this
  omega

lemma get_clip_frames_eq_windowSpec (fb : FrameBuffer) (t d : ℚ) :
    fb.get_clip_frames t d =
      (windowSpec (fb.timestamps.zip fb.buffer) t d).map Prod.snd := by
  unfold FrameBuffer.get_clip_frames windowSpec
  split
  · next hemp =>
      have : fb.timestamps = [] := by simpa using hemp
      rw [this]
      simp
  · rfl

lemma get_clip_frames_length_le (fb : FrameBuffer) (t d : ℚ) :
    (fb.get_clip_frames t d).length ≤ fb.buffer.length := by
  rw [get_clip_frames_eq_windowSpec]
  unfold windowSpec
  simp only [List.length_map]
  refine le_trans (List.length_filter_le _ _) ?_
  rw [List.length_zip]
  exact min_le_right _ _

lemma zip_pairwise_fst (l₁ : List ℚ) (l₂ : List ℕ)
    (h : List.Pairwise (· ≤ ·) l₁) :
    List.Pairwise (fun p q : ℚ × ℕ => p.1 ≤ q.1) (l₁.zip l₂) := by
  rw [List.pairwise_iff_getElem] at h ⊢
  intro i j hi hj hij
  rw [List.length_zip] at hi hj
  have h1 : i < l₁.length := by omega
  have h2 : j < l₁.length := by omega
  simp only [List.getElem_zip]
  exact h i j h1 h2 hij

lemma windowSpec_sorted (entries : List (ℚ × ℕ)) (t d : ℚ)
    (hs : List.Pairwise (fun p q : ℚ × ℕ => p.1 ≤ q.1) entries) :
    List.Sorted (· ≤ ·) ((windowSpec entries t d).map Prod.fst) := by
  unfold windowSpec List.Sorted
  rw [List.pairwise_map]
  exact hs.sublist (List.filter_sublist entries)

lemma get_clip_frames_of_empty (fb : FrameBuffer) (t d : ℚ)
    (hb : fb.timestamps = []) : fb.get_clip_frames t d = [] := by
  unfold FrameBuffer.get_clip_frames
  rw [hb]
  rfl

/-- C4: for any run of `add_frame` calls with non-decreasing timestamps and any
subsequent `get_clip_frames(t, d)` call: the result is exactly the buffered
(timestamp, frame) entries whose timestamp lies in `[t - d/2, t + d/2]`
(`windowSpec`, the spec's selection), it never has more entries than are
buffered, the selected entries are in ascending timestamp order, and an empty
buffer yields an empty result (a buffer not spanning the full window simply
yields the truncated selection — the function is total, no error path). -/
theorem window_contract (N : ℕ) (h : Heap) (ins : List (ℕ × ℚ)) (t d : ℚ)
    (hsorted : List.Sorted (· ≤ ·) (ins.map Prod.snd)) :
    (fbRun N h ins).get_clip_frames t d =
      (windowSpec ((fbRun N h ins).timestamps.zip (fbRun N h ins).buffer) t d).map
        Prod.snd ∧
    ((fbRun N h ins).get_clip_frames t d).length ≤ (fbRun N h ins).buffer.length ∧
    List.Sorted (· ≤ ·)
      ((windowSpec ((fbRun N h ins).timestamps.zip (fbRun N h ins).buffer) t d).map
        Prod.fst) ∧
    ((fbRun N h ins).buffer = [] → (fbRun N h ins).get_clip_frames t d = []) := by
  refine ⟨get_clip_frames_eq_windowSpec _ t d, get_clip_frames_length_le _ t d,
    ?_, ?_⟩
  · refine windowSpec_sorted _ t d (zip_pairwise_fst _ _ ?_)
    rw [fbRun_timestamps]
    exact hsorted.sublist (List.drop_sublist _ _)
  · intro hb
    refine get_clip_frames_of_empty _ t d ?_
    have := fbRun_length_eq N h ins
    rw [hb] at this
    simpa using this

/-- Frames fed to the demo window run: three adds with ascending timestamps
1, 2, 4 (caller array object 0). -/
def demoWindowIns : List (ℕ × ℚ) := [(0, 1), (0, 2), (0, 4)]

/-- Initial demo heap holding one caller-owned frame array. -/
def demoHeap : Heap := [[5, 6]]

/-- Witness for C4 at capacity 3, heap `demoHeap`, the three-add run
`demoWindowIns` and window `get_clip_frames 2 4`. -/
theorem window_contract_witness :
    (fbRun 3 demoHeap demoWindowIns).get_clip_frames 2 4 =
      (windowSpec
        ((fbRun 3 demoHeap demoWindowIns).timestamps.zip
          (fbRun 3 demoHeap demoWindowIns).buffer) 2 4).map Prod.snd ∧
    ((fbRun 3 demoHeap demoWindowIns).get_clip_frames 2 4).length ≤
      (fbRun 3 demoHeap demoWindowIns).buffer.length ∧
    List.Sorted (· ≤ ·)
      ((windowSpec
        ((fbRun 3 demoHeap demoWindowIns).timestamps.zip
          (fbRun 3 demoHeap demoWindowIns).buffer) 2 4).map Prod.fst) ∧
    ((fbRun 3 demoHeap demoWindowIns).buffer = [] →
      (fbRun 3 demoHeap demoWindowIns).get_clip_frames 2 4 = []) :=
  window_contract 3 demoHeap demoWindowIns 2 4
    (by norm_num [demoWindowIns, List.sorted_cons])

/-- Three adds into a capacity-2 buffer: the first stored copy (object id
`demoHeap.length + 0 = 1`) is evicted. -/
def demoOverflowIns : List (ℕ × ℚ) := [(0, 1), (0, 2), (0, 3)]

/-- C5: the buffer never holds more than its fixed capacity; an add at
capacity drops the oldest entry before appending the fresh copy (whose object
id is the pre-add heap length); and after more than `N` adds the copies stored
by the earliest adds are gone from the buffer and can never appear in any
subsequent `get_clip_frames` result. -/
theorem buffer_capacity_fifo (N : ℕ) (h : Heap) (ins : List (ℕ × ℚ)) :
    (fbRun N h ins).buffer.length ≤ N ∧
    (∀ (fb : FrameBuffer) (h' : Heap) (frame : ℕ) (t : ℚ),
      fb.buffer.length = fb.max_size → 0 < fb.max_size →
      ((fb.add_frame h' frame t).1).buffer = fb.buffer.tail ++ [h'.length]) ∧
    (∀ j, j < ins.length - N →
      (h.length + j) ∉ (fbRun N h ins).buffer ∧
      ∀ t d, (h.length + j) ∉ (fbRun N h ins).get_clip_frames t d) := by
  refine ⟨?_, ?_, ?_⟩
  · rw [fbRun_buffer]
    simp [copyIds]
    omega
  · intro fb h' frame t hlen hpos
    show pushBounded fb.max_size fb.buffer h'.length = fb.buffer.tail ++ [h'.length]
    unfold pushBounded
    have hidx : (fb.buffer ++ [h'.length]).length - fb.max_size = 1 := by
      simp [hlen]
    rw [hidx, List.drop_append_of_le_length (by omega), List.drop_one]
  · intro j hj
    have hbuf : ∀ x ∈ (fbRun N h ins).buffer, h.length + (ins.length - N) ≤ x := by
      intro x hx
      rw [fbRun_buffer] at hx
      exact (mem_copyIds_drop _ _ _ _ hx).1
    constructor
    · intro hmem
      have := hbuf _ hmem
      omega
    · intro t d hmem
      have := hbuf _ (get_clip_frames_subset _ t d _ hmem)
      omega

/-- Witness for C5: capacity 2, three adds; the first stored copy (id 1) is
in neither the buffer nor the window result, an at-capacity add evicts the
oldest entry, and the final buffer length is within capacity. -/
theorem buffer_capacity_fifo_witness :
    (fbRun 2 demoHeap demoOverflowIns).buffer.length ≤ 2 ∧
    ((FrameBuffer.mk 2 [1, 2] [1, 2]).add_frame demoHeap 0 5).1.buffer = [2, 1] ∧
    (1:ℕ) ∉ (fbRun 2 demoHeap demoOverflowIns).buffer ∧
    (1:ℕ) ∉ (fbRun 2 demoHeap demoOverflowIns).get_clip_frames 2 10 := by
  have h := buffer_capacity_fifo 2 demoHeap demoOverflowIns
  have h3 := h.2.2 0 (by norm_num [demoOverflowIns])
  refine ⟨h.1, ?_, by simpa using h3.1, by simpa using h3.2 2 10⟩
  have h2 := h.2.1 (FrameBuffer.mk 2 [1, 2] [1, 2]) demoHeap 0 5 (by simp) (by norm_num)
  simpa [demoHeap] using h2

/-- Buffer state after one `add_frame` call on a fresh capacity-2 buffer:
holds the single stored copy, object id 1. -/
def demoFB : FrameBuffer := ((FrameBuffer.init 2).add_frame demoHeap 0 1).1

/-- The heap after that same call (original array 0 plus its stored copy 1). -/
def demoFBHeap : Heap := ((FrameBuffer.init 2).add_frame demoHeap 0 1).2

lemma fbRun_buffer_ids_fresh (N : ℕ) (h : Heap) (ins : List (ℕ × ℚ)) :
    ∀ id ∈ (fbRun N h ins).buffer, h.length ≤ id := by
  intro id hid
  rw [fbRun_buffer] at hid
  have := mem_copyIds_drop _ _ _ _ hid
  omega

/-- C9 counterexample: the list returned by `get_clip_frames` holds the very
array objects stored in the buffer — here the returned object id equals the
buffered one — because line 91 appends `self.buffer[i]` itself, without a
copy.  The returned frames are aliases, not copies. -/
theorem window_returns_buffer_aliases :
    demoFB.get_clip_frames 1 10 = demoFB.buffer ∧ demoFB.buffer = [1] := by
  constructor <;>
    norm_num [demoFB, demoHeap, FrameBuffer.get_clip_frames,
      FrameBuffer.add_frame, FrameBuffer.init, pushBounded, Heap.lookup]

/-- C9 (amended): although `get_clip_frames` returns aliases into the buffer
rather than copies, subsequent buffer mutation (any further `add_frame` calls,
including those that evict under capacity pressure) only allocates fresh
copies and drops references — it never writes a stored array in place — so the
contents of every previously returned frame are unchanged. -/
theorem window_frames_unaffected_by_later_adds (fb : FrameBuffer) (h : Heap)
    (ins : List (ℕ × ℚ)) (t d : ℚ) (id : ℕ)
    (hid : id ∈ fb.get_clip_frames t d) (hv : id < h.length) :
    Heap.lookup (runBuffer fb h ins).2 id = Heap.lookup h id := by
  obtain ⟨e, he⟩ := runBuffer_heap_grows ins fb h
  rw [he, Heap.lookup_append _ _ _ hv]

/-- Witness for C9 (amended): the frame returned by a window call on `demoFB`
keeps its contents across three further adds that overflow the buffer. -/
theorem window_frames_unaffected_witness :
    Heap.lookup (runBuffer demoFB demoFBHeap demoOverflowIns).2 1 =
      Heap.lookup demoFBHeap 1 :=
  window_frames_unaffected_by_later_adds demoFB demoFBHeap demoOverflowIns 1 10 1
    (by norm_num [demoFB, demoHeap, FrameBuffer.get_clip_frames,
      FrameBuffer.add_frame, FrameBuffer.init, pushBounded])
    (by norm_num [demoFBHeap, demoHeap, FrameBuffer.add_frame])

/-- C10: `add_frame` stores a defensive copy (`frame.copy()`, line 75): after
any run of adds, writing new contents into any pre-existing caller array
(`i < h.length`) changes neither the contents of any frame held in the buffer
nor the contents of any frame returned by a subsequent window call. -/
theorem add_frame_defensive_copy (N : ℕ) (h : Heap) (ins : List (ℕ × ℚ))
    (i : ℕ) (img : Image) (hi : i < h.length) :
    (∀ id ∈ (fbRun N h ins).buffer,
      Heap.lookup (Heap.write (heapRun N h ins) i img) id =
        Heap.lookup (heapRun N h ins) id) ∧
    (∀ t d : ℚ, ∀ id ∈ (fbRun N h ins).get_clip_frames t d,
      Heap.lookup (Heap.write (heapRun N h ins) i img) id =
        Heap.lookup (heapRun N h ins) id) := by
  have key : ∀ id ∈ (fbRun N h ins).buffer,
      Heap.lookup (Heap.write (heapRun N h ins) i img) id =
        Heap.lookup (heapRun N h ins) id := by
    intro id hid
    have hfresh := fbRun_buffer_ids_fresh N h ins id hid
    exact Heap.lookup_write_ne _ _ _ _ (by omega)
  exact ⟨key, fun t d id hid => key id (get_clip_frames_subset _ t d id hid)⟩

/-- Witness for C10: after the overflow run, mutating the caller's array 0
in place leaves the contents of buffered frame 3 unchanged. -/
theorem add_frame_defensive_copy_witness :
    Heap.lookup (Heap.write (heapRun 2 demoHeap demoOverflowIns) 0 [9]) 3 =
      Heap.lookup (heapRun 2 demoHeap demoOverflowIns) 3 :=
  (add_frame_defensive_copy 2 demoHeap demoOverflowIns 0 [9]
    (by norm_num [demoHeap])).1 3
    (by rw [fbRun_buffer]
        norm_num [copyIds, demoHeap, demoOverflowIns, List.range_succ])

/-- The deterministic fields of the clip metadata record built by
`CameraProcessor.create_clip_for_round` (lines 162-177); the random uuid, the
paths derived from it and the wall-clock `published_at` are omitted. -/
structure ClipData where
  round_id : String
  subject_id : String
  hole_number : ℕ
  camera_id : String
  duration_sec : ℕ
  face_blur_applied : Bool
  auto_generated : Bool
  detection_method : String
  deriving Repr, DecidableEq

/-- The `clip_data` dictionary of `create_clip_for_round` for a clip with
`frames_len` frames: `duration_sec = len(frames) // 30` and
`detection_method` is the hard-coded string `"motion_detection"`. -/
def clip_metadata (frames_len : ℕ) (round_id : String) : ClipData :=
  { round_id := round_id
    subject_id := "auto_detected_" ++ round_id
    hole_number := 1
    camera_id := "lexington_hole_1"
    duration_sec := frames_len / 30
    face_blur_applied := false
    auto_generated := true
    detection_method := "motion_detection" }

/-- `CameraProcessor.create_clip_for_round` (lines 152-191).  Its whole body
is wrapped in try/except (errors are logged, nothing is raised), and
`save_clip_video` returns `""` — after which the function returns without a
record — when the frame list is empty or encoding fails.  `persistOk r`
abstracts "no persistence/encoding failure occurred for round r"; the result
is `none` exactly when the clip for that round was skipped. -/
def create_clip_for_round (persistOk : String → Bool) (frames : List ℕ)
    (round_id : String) : Option ClipData :=
  if frames.isEmpty then none
  else if persistOk round_id then some (clip_metadata frames.length round_id)
  else none

/-- `CameraProcessor._process_shot_detection` (lines 247-257): one clip
attempt per active round, in order; every per-round failure is swallowed
inside `create_clip_for_round`, so the loop always visits every round. -/
def process_shot_detection (persistOk : String → Bool) (frames : List ℕ)
    (rounds : List String) : List (Option ClipData) :=
  rounds.map (create_clip_for_round persistOk frames)

/-- `manual_trigger_clip` (`enhanced_live_api.py` lines 192-217): with no
latest frame published it raises 503 "No frame available" (`none`); otherwise
it replicates the single latest frame 300 times and hands that list to
`_process_shot_detection`, reusing the exact same per-round clip-creation
path as motion detection. -/
def manual_trigger_clip (persistOk : String → Bool) (latest : Option ℕ)
    (rounds : List String) : Option (List (Option ClipData)) :=
  match latest with
  | none => none
  | some img =>
      some (process_shot_detection persistOk (List.replicate 300 img) rounds)

/-- Oracle for runs in which no persistence or encoding failure occurs. -/
def allOk : String → Bool := fun _ => true

/-- Oracle for runs in which round "round1" suffers a persistence/encoding
failure and every other round succeeds. -/
def failRound1 : String → Bool := fun r => !(r == "round1")

lemma replicate_300_isEmpty (img : ℕ) :
    (List.replicate 300 img).isEmpty = false := rfl

lemma create_clip_replicate (persistOk : String → Bool) (img : ℕ) (r : String)
    (hok : persistOk r = true) :
    create_clip_for_round persistOk (List.replicate 300 img) r =
      some (clip_metadata 300 r) := by
  unfold create_clip_for_round
  rw [replicate_300_isEmpty, if_neg Bool.false_ne_true, if_pos hok,
    List.length_replicate]

lemma manual_trigger_run_eq :
    manual_trigger_clip allOk (some 0) ["round1"] =
      some [some (clip_metadata 300 "round1")] := by
  have h1 : manual_trigger_clip allOk (some 0) ["round1"] =
      some (process_shot_detection allOk (List.replicate 300 0) ["round1"]) := rfl
  rw [h1]
  unfold process_shot_detection
  rw [List.map_cons, List.map_nil, create_clip_replicate allOk 0 "round1" rfl]

/-- C7 counterexample: a clip created through the manual trigger path carries
`detection_method = "motion_detection"`, not `"manual"`: the manual path
funnels into `create_clip_for_round`, which hard-codes the tag, and no
`"manual"` value exists anywhere in the source. -/
theorem manual_trigger_tagged_motion_detection :
    manual_trigger_clip allOk (some 0) ["round1"] =
      some [some (clip_metadata 300 "round1")] ∧
    (clip_metadata 300 "round1").detection_method = "motion_detection" ∧
    (clip_metadata 300 "round1").detection_method ≠ "manual" :=
  ⟨manual_trigger_run_eq, rfl, by decide⟩

/-- C7 (amended): every clip record produced by the manual trigger path
carries the tag `"motion_detection"` — the same tag as motion-detected clips;
the code does not distinguish manual clips.  (The manual path never touches
the `FrameBuffer`: it fabricates its frame list by replication, so the
`get_clip_frames` window contract is not involved.) -/
theorem manual_trigger_clips_method (persistOk : String → Bool) (img : ℕ)
    (rounds : List String) (res : List (Option ClipData)) (c : ClipData)
    (hres : manual_trigger_clip persistOk (some img) rounds = some res)
    (hc : some c ∈ res) : c.detection_method = "motion_detection" := by
  have hres2 : some (process_shot_detection persistOk
      (List.replicate 300 img) rounds) = some res := by
    rw [← hres]; rfl
  have hres' := Option.some.inj hres2
  rw [← hres'] at hc
  unfold process_shot_detection at hc
  rw [List.mem_map] at hc
  obtain ⟨r, _, hr⟩ := hc
  unfold create_clip_for_round at hr
  rw [replicate_300_isEmpty, if_neg Bool.false_ne_true] at hr
  by_cases hok : persistOk r = true
  · rw [if_pos hok, List.length_replicate] at hr
    cases Option.some.inj hr
    rfl
  · rw [if_neg hok] at hr
    exact Option.noConfusion hr

/-- Witness for C7 (amended) at the concrete one-round run. -/
theorem manual_trigger_clips_method_witness :
    (clip_metadata 300 "round1").detection_method = "motion_detection" :=
  manual_trigger_clips_method allOk 0 ["round1"]
    [some (clip_metadata 300 "round1")] (clip_metadata 300 "round1")
    manual_trigger_run_eq
    (by simp)

/-- C8: per-round isolation in `_process_shot_detection`: the loop visits
every active round (one result per round), and a round whose persistence
succeeds gets its clip no matter which other rounds fail — a failure for one
round is caught inside `create_clip_for_round` and never aborts the
remaining rounds. -/
theorem per_round_isolation (persistOk : String → Bool) (frames : List ℕ)
    (rounds : List String) (r : String) :
    (process_shot_detection persistOk frames rounds).length = rounds.length ∧
    (r ∈ rounds → persistOk r = true → frames ≠ [] →
      some (clip_metadata frames.length r) ∈
        process_shot_detection persistOk frames rounds) := by
  constructor
  · simp [process_shot_detection]
  · intro hmem hok hne
    unfold process_shot_detection
    rw [List.mem_map]
    refine ⟨r, hmem, ?_⟩
    unfold create_clip_for_round
    rw [if_neg (by simpa [List.isEmpty_iff] using hne), if_pos hok]

/-- Witness for C8: with "round1" failing persistence and "round2" healthy,
the loop still yields one result per round, "round2" still gets its clip, and
the run's full output is `[none, clip for round2]`. -/
theorem per_round_isolation_witness :
    (process_shot_detection failRound1 [7] ["round1", "round2"]).length = 2 ∧
    some (clip_metadata 1 "round2") ∈
      process_shot_detection failRound1 [7] ["round1", "round2"] ∧
    process_shot_detection failRound1 [7] ["round1", "round2"] =
      [none, some (clip_metadata 1 "round2")] := by
  have h := per_round_isolation failRound1 [7] ["round1", "round2"] "round2"
  refine ⟨h.1, h.2 (by simp) (by decide) (by simp), ?_⟩
  simp [process_shot_detection, create_clip_for_round, failRound1, clip_metadata]
